import Mathlib

/-!
Verification of the bingx-py authenticated request pipeline, its caching
subsystem and its error classifier, as a shallow embedding of the Python
source (bingx_py/http_client.py, caching/memory_cache.py, config.py,
exceptions.py) in Lean 4.

Python dictionaries are modelled as association lists with unique keys,
Python optional values as Option, raised exceptions as Except errors, and
wall-clock readings (time.time) as explicit Nat arguments.  The HMAC-SHA256
primitive from hashlib/hmac is an external library call and is modelled as
an abstract signing function carried by the client, which also models the
override_signature hook of the source.
-/

namespace BingX

/-- Python scalar-or-list parameter values, as used in the request
parameter mappings of the source. -/
inductive PValue where
  | vStr (s : String)
  | vInt (n : Int)
  | vList (l : List PValue)

/-- Single-quote character, used by the Python repr of strings. -/
def squote : String := String.singleton (Char.ofNat 39)

mutual

/-- Python repr of a parameter value: ints print as themselves, strings are
wrapped in single quotes (we assume values contain no quote or escape
characters, as exchange parameter values do), lists are bracketed with
elements separated by a comma and a space. -/
def pyRepr : PValue → String
  | .vStr s => squote ++ s ++ squote
  | .vInt n => toString n
  | .vList l => "[" ++ ", ".intercalate (pyReprList l) ++ "]"

/-- Python repr applied to each element of a list. -/
def pyReprList : List PValue → List String
  | [] => []
  | v :: vs => pyRepr v :: pyReprList vs

end

/-- Python str of a parameter value: like repr except that strings print
without quotes. -/
def pyStr : PValue → String
  | .vStr s => s
  | v => pyRepr v

/-- Python truthiness of a parameter value: empty strings, zero and empty
lists are falsy. -/
def pyTruthy : PValue → Bool
  | .vStr s => s ≠ ""
  | .vInt n => n ≠ 0
  | .vList l => !l.isEmpty

/-- A request parameter mapping: items of a Python dict (unique names). -/
def Params := List (String × PValue)

/-- Stable insertion of a pair into a list ordered by parameter name,
placing the new pair before the first pair of greater-or-equal name. -/
def insertPair (x : String × PValue) : List (String × PValue) → List (String × PValue)
  | [] => [x]
  | y :: ys => if x.1 ≤ y.1 then x :: y :: ys else y :: insertPair x ys

/-- Stable sort of dict items by parameter name; models Python sorted on
the items of a dict (names are unique, so values are never compared). -/
def sortPairs : List (String × PValue) → List (String × PValue)
  | [] => []
  | x :: xs => insertPair x (sortPairs xs)

/-- UTF-8 encoding of a character as a list of byte values. -/
def utf8Bytes (c : Char) : List Nat :=
  let n := c.toNat
  if n < 0x80 then [n]
  else if n < 0x800 then [0xC0 + n / 0x40, 0x80 + n % 0x40]
  else if n < 0x10000 then
    [0xE0 + n / 0x1000, 0x80 + n / 0x40 % 0x40, 0x80 + n % 0x40]
  else
    [0xF0 + n / 0x40000, 0x80 + n / 0x1000 % 0x40, 0x80 + n / 0x40 % 0x40,
      0x80 + n % 0x40]

/-- Uppercase hexadecimal digit for a value below 16. -/
def hexDigit (n : Nat) : Char :=
  if n < 10 then Char.ofNat (48 + n) else Char.ofNat (55 + n)

/-- Percent-escaping of one byte as done by urllib quote_plus with empty
safe set: ASCII alphanumerics and underscore, dot, dash, tilde stay, the
space byte becomes a plus, every other byte becomes a percent escape. -/
def quoteByte (b : Nat) : String :=
  if (48 ≤ b ∧ b ≤ 57) ∨ (65 ≤ b ∧ b ≤ 90) ∨ (97 ≤ b ∧ b ≤ 122)
      ∨ b = 95 ∨ b = 46 ∨ b = 45 ∨ b = 126 then
    String.singleton (Char.ofNat b)
  else if b = 32 then "+"
  else "%" ++ String.singleton (hexDigit (b / 16)) ++ String.singleton (hexDigit (b % 16))

/-- urllib parse.quote_plus of a string over its UTF-8 bytes. -/
def quotePlus (s : String) : String :=
  String.join ((s.toList.map utf8Bytes).flatten.map quoteByte)

/-- urllib parse.urlencode of a list of pairs: quote_plus of the str of
each side, joined name=value with ampersands. -/
def urlencodePairs (ps : List (String × PValue)) : String :=
  "&".intercalate (ps.map fun kv => quotePlus kv.1 ++ "=" ++ quotePlus (pyStr kv.2))

/-- The HTTP verb of a request, the HttpMethod literal of the source. -/
inductive Verb where
  | GET | POST | PUT | DELETE
deriving DecidableEq

/-- The wire name of a verb. -/
def verbStr : Verb → String
  | .GET => "GET"
  | .POST => "POST"
  | .PUT => "PUT"
  | .DELETE => "DELETE"

/-- Python str.replace of every space by the empty string: drop every
space character. -/
def stripSpaces (s : String) : String :=
  String.mk (s.data.filter fun c => c ≠ ' ')

/-- Rendering of one parameter value inside the canonical parameter string
of BingXHttpClient._parse_params: a list value is its Python str with every
space removed, any other value is its Python str. -/
def renderParam : PValue → String
  | .vList l => stripSpaces (pyStr (PValue.vList l))
  | v => pyStr v

/-- BingXHttpClient._parse_params: iterate the dict items in sorted order,
drop falsy values, join name=value with ampersands, then append the
timestamp field, without a leading ampersand when the string is empty.
The epoch-milliseconds reading of time.time is the explicit tMs input. -/
def parse_params (params : Params) (tMs : Nat) : String :=
  let params_string :=
    "&".intercalate
      (((sortPairs params).filter fun kv => pyTruthy kv.2).map
        fun kv => kv.1 ++ "=" ++ renderParam kv.2)
  if params_string ≠ "" then
    params_string ++ "&timestamp=" ++ toString tMs
  else
    params_string ++ "timestamp=" ++ toString tMs

/-- The canonicalization contract as worded by the specification: drop any
parameter whose value is falsy, sort the remaining entries by name, join
name=value with ampersands, render a list value as a comma-joined string
with internal whitespace stripped, append the timestamp with no leading
ampersand when the string so far is empty. -/
def spec_canonical (params : Params) (tMs : Nat) : String :=
  let kept := params.filter fun kv => pyTruthy kv.2
  let rendered := (sortPairs kept).map fun kv =>
    kv.1 ++ "=" ++
      match kv.2 with
      | .vList l => ",".intercalate (l.map fun v => stripSpaces (pyStr v))
      | v => pyStr v
  let s := "&".intercalate rendered
  if s = "" then "timestamp=" ++ toString tMs
  else s ++ "&timestamp=" ++ toString tMs

/-- The canonicalization contract amended to the list rendering the code
performs: a list value is rendered as its Python string representation with
every space removed (bracketed and comma-separated, string elements in
quotes), everything else as in the specification. -/
def spec_canonical_amended (params : Params) (tMs : Nat) : String :=
  let kept := params.filter fun kv => pyTruthy kv.2
  let rendered := (sortPairs kept).map fun kv => kv.1 ++ "=" ++ renderParam kv.2
  let s := "&".intercalate rendered
  if s = "" then "timestamp=" ++ toString tMs
  else s ++ "&timestamp=" ++ toString tMs

/-- The two volatile parameter names excluded from cache keys. -/
def filterVolatile (params : Params) : Params :=
  params.filter fun kv => kv.1 ≠ "signature" ∧ kv.1 ≠ "timestamp"

/-- BingXHttpClient._generate_cache_key: start from verb and endpoint,
append the urlencoded sorted filtered parameters when the mapping is truthy
(non-empty), append the unique cache attribute when truthy, join with
colons. -/
def generate_cache_key (method : Verb) (endpoint : String)
    (params : Option Params) (attr : Option String) : String :=
  let key_parts := [verbStr method, endpoint]
  let key_parts :=
    match params with
    | some ps =>
      if ps.isEmpty then key_parts
      else key_parts ++ [urlencodePairs (sortPairs (filterVolatile ps))]
    | none => key_parts
  let key_parts :=
    match attr with
    | some a => if a ≠ "" then key_parts ++ [a] else key_parts
    | none => key_parts
  ":".intercalate key_parts

/-- A decoded response payload: the fields the core inspects (code, msg,
timestamp) plus the remaining content of the mapping, which the core only
carries around. -/
structure Payload where
  code : Option Int
  msg : Option String
  timestamp : Option Int
  rest : List (String × String)
deriving DecidableEq

/-- The empty mapping, the decode result for absent or unparseable
bodies. -/
def emptyPayload : Payload :=
  { code := none, msg := none, timestamp := none, rest := [] }

/-- A Python value of type dict-or-None, as flows through the asynchronous
request path (aiohttp json may return None); none is the Python None. -/
def PyV := Option Payload
deriving DecidableEq

/-- The taxonomy of classified failures, one kind per exception class of
exceptions.py; apiError is the generic fallback kind. -/
inductive ErrKind where
  | badRequest | unauthorized | forbidden | notFound | tooManyRequests
  | ipBanned | internalServer | gatewayTimeout
  | signatureVerificationFailed | internalSystem | operation
  | invalidParameter | orderNotFound | positionNotFound | riskForbidden
  | permissionDenied | ipWhitelist | insufficientMargin
  | orderLimitReached | orderAlreadyFilled | orderProcessing
  | nullSignature | incorrectAPIKey | timestampBad | rateLimit
  | maxPositionValue | pendingOrders | makerOrder | maxLeverage
  | tradingPairSuspended | liquidationPrice | rpcTimeout
  | suspendedFromOpeningPositions | duplicateOrder | orderPrice
  | tradeValidation | tradeExecution | apiError
deriving DecidableEq

/-- The raised classified failure: kind, message, optional server
timestamp, and the raw code which only the generic kind carries. -/
structure ClassifiedError where
  kind : ErrKind
  message : String
  timestamp : Option Int
  code : Option Int
deriving DecidableEq

/-- The fixed error code table of BingXHttpClient._check_errors, mapping
specific numeric codes to exception classes. -/
def error_mapping : List (Int × ErrKind) :=
  [(400, .badRequest), (401, .unauthorized), (403, .forbidden),
   (404, .notFound), (429, .tooManyRequests), (418, .ipBanned),
   (500, .internalServer), (504, .gatewayTimeout),
   (100001, .signatureVerificationFailed), (100500, .internalSystem),
   (80012, .operation), (80014, .invalidParameter),
   (80016, .orderNotFound), (80017, .positionNotFound),
   (80020, .riskForbidden), (100004, .permissionDenied),
   (100419, .ipWhitelist), (101204, .insufficientMargin),
   (80013, .orderLimitReached), (80018, .orderAlreadyFilled),
   (80019, .orderProcessing), (100412, .nullSignature),
   (100413, .incorrectAPIKey), (100421, .timestampBad),
   (100410, .rateLimit), (101209, .maxPositionValue),
   (101212, .pendingOrders), (101215, .makerOrder),
   (101414, .maxLeverage), (101415, .tradingPairSuspended),
   (101460, .liquidationPrice), (101500, .rpcTimeout),
   (101514, .suspendedFromOpeningPositions), (109201, .duplicateOrder),
   (101211, .orderPrice), (101400, .tradeValidation),
   (80001, .tradeExecution)]

/-- BingXHttpClient._check_errors: return normally when the payload has no
code field or the code is zero; otherwise look the code up in the table,
falling back to the generic APIError kind, and raise: the generic kind
carries the raw code, a specific kind does not. -/
def check_errors (data : Payload) : Except ClassifiedError Unit :=
  match data.code with
  | none => .ok ()
  | some c =>
    if c = 0 then .ok ()
    else
      let error_message := data.msg.getD "No error message provided"
      let ts := data.timestamp
      let exception_class := ((error_mapping.lookup c).getD .apiError)
      if exception_class = .apiError then
        .error { kind := .apiError, message := error_message,
                 timestamp := ts, code := some c }
      else
        .error { kind := exception_class, message := error_message,
                 timestamp := ts, code := none }

/-- The stored map of an in-memory cache: Python dict from key to the pair
of value and optional absolute expiry time. -/
def CacheData (α : Type) := List (String × (α × Option Nat))

instance {α : Type} [DecidableEq α] : DecidableEq (CacheData α) :=
  inferInstanceAs (DecidableEq (List (String × (α × Option Nat))))

/-- Python dict assignment: overwrite the entry in place when the key is
present, append it otherwise. -/
def dictSet {α : Type} : CacheData α → String → α × Option Nat → CacheData α
  | [], key, v => [(key, v)]
  | (k, w) :: rest, key, v =>
    if k = key then (key, v) :: rest else (k, w) :: dictSet rest key v

/-- Python dict pop or del of a key. -/
def dictPop {α : Type} : CacheData α → String → CacheData α
  | [], _ => []
  | (k, w) :: rest, key =>
    if k = key then rest else (k, w) :: dictPop rest key

/-- SyncMemoryCache.get: the dict read at wall time now; a read of an
entry that is past its expiry pops the entry and reports a miss; the check
mirrors the Python truthiness guard on the stored expiry value. -/
def SyncMemoryCache.get {α : Type} (data : CacheData α) (key : String)
    (now : Nat) : Option α × CacheData α :=
  match data.lookup key with
  | none => (none, data)
  | some (value, expires) =>
    match expires with
    | some e => if e ≠ 0 ∧ e < now then (none, dictPop data key) else (some value, data)
    | none => (some value, data)

/-- SyncMemoryCache.set at wall time now: a falsy ttl (absent or zero)
stores a never-expiring entry, otherwise expiry is now plus ttl. -/
def SyncMemoryCache.set {α : Type} (data : CacheData α) (key : String)
    (value : α) (ttl : Option Nat) (now : Nat) : CacheData α :=
  let expires : Option Nat :=
    match ttl with
    | some t => if t ≠ 0 then some (now + t) else none
    | none => none
  dictSet data key (value, expires)

/-- AsyncMemoryCache.aget: identical dict logic under the cooperative
lock; the expired entry is deleted and the read reports a miss. -/
def AsyncMemoryCache.aget {α : Type} (data : CacheData α) (key : String)
    (now : Nat) : Option α × CacheData α :=
  match data.lookup key with
  | none => (none, data)
  | some (value, expires) =>
    match expires with
    | some e => if e ≠ 0 ∧ e < now then (none, dictPop data key) else (some value, data)
    | none => (some value, data)

/-- AsyncMemoryCache.aset: identical storing logic under the cooperative
lock; a falsy ttl stores a never-expiring entry. -/
def AsyncMemoryCache.aset {α : Type} (data : CacheData α) (key : String)
    (value : α) (ttl : Option Nat) (now : Nat) : CacheData α :=
  let expires : Option Nat :=
    match ttl with
    | some t => if t ≠ 0 then some (now + t) else none
    | none => none
  dictSet data key (value, expires)

/-- The lifecycle of one underlying session attribute: none before
connect, an open session after connect, a closed session object (the
attribute is still set) after close. -/
inductive SessionState where
  | unopened | opened | closedS
deriving DecidableEq

/-- The cache reference held by a client: a synchronous BaseCache instance
or an asynchronous BaseAsyncCache instance, each with its stored map.
Values have the Python dict-or-None type because the asynchronous path may
store None. -/
inductive CacheRef where
  | syncC (d : CacheData PyV)
  | asyncC (d : CacheData PyV)
deriving DecidableEq

/-- The mutable state of an HttpClient: base url, optional cache instance,
default ttl, the two session attributes, and the process-wide flag of
cache_config that permits caching non-GET verbs. -/
structure ClientState where
  base_url : String
  cache : Option CacheRef
  default_cache_ttl : Nat
  session : SessionState
  asyncSession : SessionState
  allowNonGetCache : Bool
deriving DecidableEq

/-- HttpClient.connect: set the synchronous session attribute. -/
def connect (st : ClientState) : ClientState :=
  { st with session := .opened }

/-- HttpClient.close: when the synchronous session attribute is set, close
the session object; the attribute itself is never cleared. -/
def close (st : ClientState) : ClientState :=
  match st.session with
  | .unopened => st
  | _ => { st with session := .closedS }

/-- HttpClient.connect_async: set the asynchronous session attribute. -/
def connect_async (st : ClientState) : ClientState :=
  { st with asyncSession := .opened }

/-- HttpClient.close_async: when the asynchronous session attribute is
set, close the session object; the attribute itself is never cleared. -/
def close_async (st : ClientState) : ClientState :=
  match st.asyncSession with
  | .unopened => st
  | _ => { st with asyncSession := .closedS }

/-- The body of an HTTP response as far as json decoding is concerned:
valid json of a mapping, an absent or whitespace body, or text that is not
parseable as json. -/
inductive Body where
  | json (p : Payload)
  | absent
  | invalid
deriving DecidableEq

/-- A transport-level response: whether the status is 2xx, and the body. -/
structure HttpResponse where
  ok : Bool
  body : Body
deriving DecidableEq

/-- The failures a pipeline invocation can raise. -/
inductive Failure where
  | notInitialized
  | cacheMisuse
  | httpStatus
  | jsonDecode
  | classified (e : ClassifiedError)
deriving DecidableEq

/-- The observable side effects of one pipeline invocation, in order. -/
inductive Event where
  | cacheRead (key : String)
  | transport (method : Verb) (url : String)
  | cacheWrite (key : String)
deriving DecidableEq

instance {ε α : Type} [DecidableEq ε] [DecidableEq α] : DecidableEq (Except ε α)
  | .ok a, .ok b =>
    if h : a = b then .isTrue (by rw [h]) else .isFalse (by intro hc; cases hc; exact h rfl)
  | .error a, .error b =>
    if h : a = b then .isTrue (by rw [h]) else .isFalse (by intro hc; cases hc; exact h rfl)
  | .ok _, .error _ => .isFalse (by intro hc; cases hc)
  | .error _, .ok _ => .isFalse (by intro hc; cases hc)

/-- The outcome of one pipeline invocation: the returned value or raised
failure, the cache instance afterwards, and the ordered side effects. -/
structure Outcome (ρ : Type) where
  result : Except Failure ρ
  cache : Option CacheRef
  events : List Event
deriving DecidableEq

/-- Decoding of a 2xx body in the synchronous path: response.json with the
json decode error caught, so an absent or unparseable body decodes to the
empty mapping. -/
def sync_decode : Body → Payload
  | .json p => p
  | .absent => emptyPayload
  | .invalid => emptyPayload

/-- Decoding of a 2xx body in the asynchronous path, following the aiohttp
response.json call of the source (content_type None): a valid json mapping
is returned, an absent or whitespace body yields Python None, and invalid
json raises a json decode error, which the source does not catch. -/
def async_decode : Body → Except Unit PyV
  | .json p => .ok (some p)
  | .absent => .ok none
  | .invalid => .error ()

/-- The transport-and-classification tail of HttpClient._request: perform
the network call, raise on a non-2xx status, decode, classify, and on
success write back to a synchronous cache instance when caching was
requested and a truthy key was generated. -/
def sync_net_phase (st : ClientState) (net : Verb → String → HttpResponse)
    (method : Verb) (endpoint : String) (cache : Option CacheRef)
    (cache_key : Option String) (use_cache : Bool) (nowS : Nat)
    (evs : List Event) : Outcome Payload :=
  let url := st.base_url ++ endpoint
  let resp := net method url
  let evs := evs ++ [.transport method url]
  if resp.ok = false then
    { result := .error .httpStatus, cache := cache, events := evs }
  else
    let data := sync_decode resp.body
    match check_errors data with
    | .error e => { result := .error (.classified e), cache := cache, events := evs }
    | .ok _ =>
      match cache_key, cache with
      | some k, some (.syncC d) =>
        if use_cache ∧ k ≠ "" then
          { result := .ok data,
            cache := some (.syncC
              (SyncMemoryCache.set d k (some data) (some st.default_cache_ttl) nowS)),
            events := evs ++ [.cacheWrite k] }
        else { result := .ok data, cache := cache, events := evs }
      | _, _ => { result := .ok data, cache := cache, events := evs }

/-- HttpClient._request, the synchronous pipeline: fail when the session
attribute is unset, gate caching of non-GET verbs on the process-wide
flag, on a request with caching and a synchronous cache instance derive
the key and read (an asynchronous instance is skipped with a warning),
return a cache hit at once, otherwise run the transport tail. -/
def sync_request (st : ClientState) (net : Verb → String → HttpResponse)
    (method : Verb) (endpoint : String) (params : Option Params)
    (use_cache : Bool) (attr : Option String) (nowS : Nat) : Outcome Payload :=
  if st.session = .unopened then
    { result := .error .notInitialized, cache := st.cache, events := [] }
  else if use_cache ∧ method ≠ .GET ∧ st.allowNonGetCache = false then
    { result := .error .cacheMisuse, cache := st.cache, events := [] }
  else
    match use_cache, st.cache with
    | true, some (.syncC d) =>
      let key := generate_cache_key method endpoint params attr
      let gr := SyncMemoryCache.get d key nowS
      match gr.1 with
      | some (some p) =>
        { result := .ok p, cache := some (.syncC gr.2), events := [.cacheRead key] }
      | _ =>
        sync_net_phase st net method endpoint (some (.syncC gr.2)) (some key)
          use_cache nowS [.cacheRead key]
    | _, c => sync_net_phase st net method endpoint c none use_cache nowS []

/-- The transport-and-classification tail of HttpClient._async_request:
raise on a non-2xx status, decode with the uncaught aiohttp json call,
classify the payload with None coerced to the empty mapping, and on
success write the decoded value (possibly None) back through whichever
cache instance is configured when caching was requested and a key was
generated. -/
def async_net_phase (st : ClientState) (net : Verb → String → HttpResponse)
    (method : Verb) (endpoint : String) (cache : Option CacheRef)
    (cache_key : Option String) (use_cache : Bool) (nowS : Nat)
    (evs : List Event) : Outcome PyV :=
  let url := st.base_url ++ endpoint
  let resp := net method url
  let evs := evs ++ [.transport method url]
  if resp.ok = false then
    { result := .error .httpStatus, cache := cache, events := evs }
  else
    match async_decode resp.body with
    | .error _ => { result := .error .jsonDecode, cache := cache, events := evs }
    | .ok data =>
      match check_errors (data.getD emptyPayload) with
      | .error e => { result := .error (.classified e), cache := cache, events := evs }
      | .ok _ =>
        match use_cache, cache, cache_key with
        | true, some (.asyncC d), some k =>
          { result := .ok data,
            cache := some (.asyncC
              (AsyncMemoryCache.aset d k data (some st.default_cache_ttl) nowS)),
            events := evs ++ [.cacheWrite k] }
        | true, some (.syncC d), some k =>
          { result := .ok data,
            cache := some (.syncC
              (SyncMemoryCache.set d k data (some st.default_cache_ttl) nowS)),
            events := evs ++ [.cacheWrite k] }
        | _, _, _ => { result := .ok data, cache := cache, events := evs }

/-- HttpClient._async_request, the asynchronous pipeline: fail when the
asynchronous session attribute is unset, gate caching of non-GET verbs on
the process-wide flag, on a request with caching and any cache instance
derive the key and read through it (a synchronous instance is used with a
degradation warning), return a non-None cache hit at once, otherwise run
the transport tail.  The net function abstracts the request call of an
open aiohttp session; the aiohttp session object itself additionally
rejects a request on a closed session with its own runtime error before
any network activity, a transport-level behavior of the library that is
outside the client code embedded here. -/
def async_request (st : ClientState) (net : Verb → String → HttpResponse)
    (method : Verb) (endpoint : String) (params : Option Params)
    (use_cache : Bool) (attr : Option String) (nowS : Nat) : Outcome PyV :=
  if st.asyncSession = .unopened then
    { result := .error .notInitialized, cache := st.cache, events := [] }
  else if use_cache ∧ method ≠ .GET ∧ st.allowNonGetCache = false then
    { result := .error .cacheMisuse, cache := st.cache, events := [] }
  else
    match use_cache, st.cache with
    | true, some (.asyncC d) =>
      let key := generate_cache_key method endpoint params attr
      let gr := AsyncMemoryCache.aget d key nowS
      match gr.1 with
      | some (some p) =>
        { result := .ok (some p), cache := some (.asyncC gr.2), events := [.cacheRead key] }
      | _ =>
        async_net_phase st net method endpoint (some (.asyncC gr.2)) (some key)
          use_cache nowS [.cacheRead key]
    | true, some (.syncC d) =>
      let key := generate_cache_key method endpoint params attr
      let gr := SyncMemoryCache.get d key nowS
      match gr.1 with
      | some (some p) =>
        { result := .ok (some p), cache := some (.syncC gr.2), events := [.cacheRead key] }
      | _ =>
        async_net_phase st net method endpoint (some (.syncC gr.2)) (some key)
          use_cache nowS [.cacheRead key]
    | _, c => async_net_phase st net method endpoint c none use_cache nowS []

/-- A BingXHttpClient: the api key header value, the signing function
(modelling the HMAC-SHA256 of _sign_request keyed by the secret, or the
override_signature hook when supplied), and the inherited client state. -/
structure BingXClient where
  api_key : String
  sign_request : String → String
  st : ClientState

/-- BingXHttpClient._request: canonicalize the caller parameters with the
capture-time timestamp, sign the canonical string, embed the canonical
string and the signature into the endpoint query string, and delegate to
the base pipeline with no parameter mapping. -/
def bingx_sync_request (c : BingXClient) (net : Verb → String → HttpResponse)
    (method : Verb) (endpoint : String) (params : Params) (use_cache : Bool)
    (attr : Option String) (tMs : Nat) (nowS : Nat) : Outcome Payload :=
  let params_str := parse_params params tMs
  let signature := c.sign_request params_str
  let endpoint := endpoint ++ "?" ++ params_str ++ "&signature=" ++ signature
  sync_request c.st net method endpoint none use_cache attr nowS

/-- BingXHttpClient._async_request: identical signing and embedding,
delegating to the asynchronous base pipeline with no parameter mapping. -/
def bingx_async_request (c : BingXClient) (net : Verb → String → HttpResponse)
    (method : Verb) (endpoint : String) (params : Params) (use_cache : Bool)
    (attr : Option String) (tMs : Nat) (nowS : Nat) : Outcome PyV :=
  let params_str := parse_params params tMs
  let signature := c.sign_request params_str
  let endpoint := endpoint ++ "?" ++ params_str ++ "&signature=" ++ signature
  async_request c.st net method endpoint none use_cache attr nowS

/-- The keys currently stored in a cache map. -/
def cacheKeys {α : Type} : CacheData α → List String
  | [] => []
  | (k, _) :: rest => k :: cacheKeys rest

/-- A pair list ordered by parameter name. -/
def KeySorted (l : List (String × PValue)) : Prop :=
  l.Sorted fun a b => a.1 ≤ b.1

/-- A client state with an open synchronous and asynchronous session, an
empty synchronous memory cache, and default configuration. -/
def demo_state : ClientState :=
  { base_url := "B", cache := some (.syncC []), default_cache_ttl := 300,
    session := .opened, asyncSession := .opened, allowNonGetCache := false }

/-- A transport function always answering 2xx with an empty json body. -/
def demo_net : Verb → String → HttpResponse :=
  fun _ _ => { ok := true, body := .json emptyPayload }

/-- A signed client over the demo state whose signing function is the
constant S, exercising the override hook of the signer. -/
def demo_client : BingXClient :=
  { api_key := "K", sign_request := fun _ => "S", st := demo_state }

/-- A representative decoded payload carrying only business data. -/
def demo_payload : Payload :=
  { code := none, msg := none, timestamp := none, rest := [("price", "42")] }

/-- A transport function always answering 2xx with the demo payload. -/
def demo_net_payload : Verb → String → HttpResponse :=
  fun _ _ => { ok := true, body := .json demo_payload }

/-- First signed cached GET of the repeated-call scenario, captured at
millisecond timestamp 111 and wall second 111. -/
def repeat_call1 : Outcome Payload :=
  bingx_sync_request demo_client demo_net_payload .GET "/x"
    [("symbol", .vStr "BTC-USDT")] true none 111 111

/-- Second signed cached GET of the repeated-call scenario: the same
logical parameters against the cache state left by the first call, at
millisecond timestamp 222 and wall second 222, well inside the default
300 second ttl. -/
def repeat_call2 : Outcome Payload :=
  bingx_sync_request
    { demo_client with st := { demo_state with cache := repeat_call1.cache } }
    demo_net_payload .GET "/x" [("symbol", .vStr "BTC-USDT")] true none 222 222

/-- A payload whose code is the signature verification failure code of
the table. -/
def sigfail_payload : Payload :=
  { code := some 100001, msg := some "sig", timestamp := none, rest := [] }

/-- A transport function answering 2xx with a payload whose code is the
signature verification failure code of the table. -/
def demo_net_sigfail : Verb → String → HttpResponse :=
  fun _ _ => { ok := true, body := Body.json sigfail_payload }

theorem mem_insertPair (x a : String × PValue) (l : List (String × PValue)) :
    a ∈ insertPair x l ↔ a = x ∨ a ∈ l := by
  induction l with
  | nil => simp [insertPair]
  | cons y ys ih =>
    simp only [insertPair]
    split
    · simp [List.mem_cons]
    · simp only [List.mem_cons, ih]
      tauto

theorem insertPair_of_le (x : String × PValue) (l : List (String × PValue))
    (h : ∀ z ∈ l, x.1 ≤ z.1) : insertPair x l = x :: l := by
  cases l with
  | nil => rfl
  | cons y ys => simp [insertPair, h y (by simp)]

theorem keySorted_insertPair (x : String × PValue) {l : List (String × PValue)}
    (h : KeySorted l) : KeySorted (insertPair x l) := by
  induction l with
  | nil => simp [insertPair, KeySorted]
  | cons y ys ih =>
    rw [KeySorted, List.sorted_cons] at h
    simp only [insertPair]
    split
    · rename_i hxy
      rw [KeySorted, List.sorted_cons]
      refine ⟨?_, ?_⟩
      · intro b hb
        rcases List.mem_cons.mp hb with hb | hb
        · exact hb ▸ hxy
        · exact le_trans hxy (h.1 b hb)
      · rw [List.sorted_cons]
        exact ⟨h.1, h.2⟩
    · rename_i hxy
      rw [KeySorted, List.sorted_cons]
      refine ⟨?_, ih h.2⟩
      intro b hb
      rcases (mem_insertPair x b ys).mp hb with hb | hb
      · exact hb ▸ le_of_not_le hxy
      · exact h.1 b hb

theorem keySorted_sortPairs (l : List (String × PValue)) : KeySorted (sortPairs l) := by
  induction l with
  | nil => simp [sortPairs, KeySorted]
  | cons x xs ih => exact keySorted_insertPair x ih

theorem filter_insertPair (p : String × PValue → Bool) (x : String × PValue)
    {l : List (String × PValue)} (h : KeySorted l) :
    (insertPair x l).filter p = if p x then insertPair x (l.filter p) else l.filter p := by
  induction l with
  | nil =>
    by_cases hp : p x <;> simp [insertPair, List.filter_cons, hp]
  | cons y ys ih =>
    rw [KeySorted, List.sorted_cons] at h
    simp only [insertPair]
    by_cases hxy : x.1 ≤ y.1
    · rw [if_pos hxy]
      by_cases hp : p x
      · by_cases hq : p y
        · simp [List.filter_cons, hp, hq, insertPair, hxy]
        · simp only [List.filter_cons, hp, hq, Bool.false_eq_true, if_true, if_false]
          rw [insertPair_of_le]
          intro z hz
          exact le_trans hxy (h.1 z (List.mem_of_mem_filter hz))
      · by_cases hq : p y <;> simp [List.filter_cons, hp, hq]
    · rw [if_neg hxy]
      by_cases hp : p x <;> by_cases hq : p y <;>
        simp [List.filter_cons, hp, hq, ih h.2, insertPair, hxy]

theorem filter_sortPairs (p : String × PValue → Bool) (l : List (String × PValue)) :
    (sortPairs l).filter p = sortPairs (l.filter p) := by
  induction l with
  | nil => rfl
  | cons x xs ih =>
    simp only [sortPairs, List.filter_cons]
    rw [filter_insertPair p x (keySorted_sortPairs xs), ih]
    by_cases hp : p x <;> simp [hp, sortPairs]

theorem lookup_dictSet_self {α : Type} (d : CacheData α) (k : String)
    (v : α × Option Nat) : List.lookup k (dictSet d k v) = some v := by
  induction d with
  | nil => simp [dictSet, List.lookup]
  | cons e rest ih =>
    obtain ⟨k0, w⟩ := e
    by_cases hk : k0 = k
    · simp [dictSet, hk, List.lookup]
    · simp only [dictSet, if_neg hk]
      rw [List.lookup]
      have : (k == k0) = false := by
        simp [BEq.beq]
        exact fun hc => hk hc.symm
      rw [this]
      exact ih

theorem mem_cacheKeys_dictSet {α : Type} (d : CacheData α) (k a : String)
    (v : α × Option Nat) (h : a ∈ cacheKeys (dictSet d k v)) :
    a ∈ cacheKeys d ∨ a = k := by
  induction d with
  | nil =>
    simp [dictSet, cacheKeys] at h
    exact Or.inr h
  | cons e rest ih =>
    obtain ⟨k0, w⟩ := e
    by_cases hk : k0 = k
    · simp only [dictSet, if_pos hk, cacheKeys, List.mem_cons] at h
      rcases h with h | h
      · exact Or.inr h
      · exact Or.inl (by simp [cacheKeys, h])
    · simp only [dictSet, if_neg hk, cacheKeys, List.mem_cons] at h
      rcases h with h | h
      · exact Or.inl (by simp [cacheKeys, h])
      · rcases ih h with h | h
        · exact Or.inl (by simp [cacheKeys, h])
        · exact Or.inr h

theorem nodup_cacheKeys_dictSet {α : Type} (d : CacheData α) (k : String)
    (v : α × Option Nat) (h : (cacheKeys d).Nodup) :
    (cacheKeys (dictSet d k v)).Nodup := by
  induction d with
  | nil => simp [dictSet, cacheKeys]
  | cons e rest ih =>
    obtain ⟨k0, w⟩ := e
    rw [cacheKeys, List.nodup_cons] at h
    by_cases hk : k0 = k
    · simp only [dictSet, if_pos hk, cacheKeys, List.nodup_cons]
      exact ⟨hk ▸ h.1, h.2⟩
    · simp only [dictSet, if_neg hk, cacheKeys, List.nodup_cons]
      refine ⟨?_, ih h.2⟩
      intro hc
      rcases mem_cacheKeys_dictSet rest k k0 v hc with hc | hc
      · exact h.1 hc
      · exact hk hc

theorem lookup_eq_none_of_not_mem {α : Type} (d : CacheData α) (k : String)
    (h : k ∉ cacheKeys d) : List.lookup k d = none := by
  induction d with
  | nil => rfl
  | cons e rest ih =>
    obtain ⟨k0, w⟩ := e
    rw [cacheKeys, List.mem_cons] at h
    push_neg at h
    rw [List.lookup]
    have : (k == k0) = false := by
      simp [BEq.beq]
      exact fun hc => h.1 hc
    rw [this]
    exact ih h.2

theorem lookup_dictPop_self {α : Type} (d : CacheData α) (k : String)
    (h : (cacheKeys d).Nodup) : List.lookup k (dictPop d k) = none := by
  induction d with
  | nil => rfl
  | cons e rest ih =>
    obtain ⟨k0, w⟩ := e
    rw [cacheKeys, List.nodup_cons] at h
    by_cases hk : k0 = k
    · rw [dictPop, if_pos hk]
      exact lookup_eq_none_of_not_mem rest k (hk ▸ h.1)
    · rw [dictPop, if_neg hk, List.lookup]
      have : (k == k0) = false := by
        simp [BEq.beq]
        exact fun hc => hk hc.symm
      rw [this]
      exact ih h.2

theorem aget_eq_get {α : Type} (d : CacheData α) (k : String) (now : Nat) :
    AsyncMemoryCache.aget d k now = SyncMemoryCache.get d k now := rfl

theorem aset_eq_set {α : Type} (d : CacheData α) (k : String) (v : α)
    (ttl : Option Nat) (now : Nat) :
    AsyncMemoryCache.aset d k v ttl now = SyncMemoryCache.set d k v ttl now := rfl

theorem lookup_mem_error_mapping {l : List (Int × ErrKind)} {c : Int} {k : ErrKind}
    (h : l.lookup c = some k) : (c, k) ∈ l := by
  induction l with
  | nil => cases h
  | cons e rest ih =>
    obtain ⟨a, b⟩ := e
    rw [List.lookup] at h
    by_cases hc : c = a
    · subst hc
      simp at h
      simp [h]
    · have hb : (c == a) = false := by simp [hc]
      rw [hb] at h
      exact List.mem_cons_of_mem _ (ih h)

theorem table_kinds_specific : ∀ p ∈ error_mapping, p.2 ≠ ErrKind.apiError := by decide

theorem table_codes_nonzero : ∀ p ∈ error_mapping, p.1 ≠ 0 := by decide

theorem sync_net_phase_error_events (st : ClientState) (net : Verb → String → HttpResponse)
    (method : Verb) (endpoint : String) (cache : Option CacheRef)
    (cache_key : Option String) (use_cache : Bool) (nowS : Nat)
    (evs : List Event) (f : Failure)
    (h : (sync_net_phase st net method endpoint cache cache_key use_cache nowS evs).result
      = .error f) :
    (sync_net_phase st net method endpoint cache cache_key use_cache nowS evs).events
      = evs ++ [.transport method (st.base_url ++ endpoint)] := by
  unfold sync_net_phase at h ⊢
  cases hok : (net method (st.base_url ++ endpoint)).ok
  · simp [hok]
  · rw [if_neg (by simp [hok])] at h ⊢
    cases hce : check_errors (sync_decode (net method (st.base_url ++ endpoint)).body)
    · simp [hce]
    · simp only [hce] at h ⊢
      exfalso
      split at h <;> (try split at h) <;> simp_all

theorem async_net_phase_error_events (st : ClientState) (net : Verb → String → HttpResponse)
    (method : Verb) (endpoint : String) (cache : Option CacheRef)
    (cache_key : Option String) (use_cache : Bool) (nowS : Nat)
    (evs : List Event) (f : Failure)
    (h : (async_net_phase st net method endpoint cache cache_key use_cache nowS evs).result
      = .error f) :
    (async_net_phase st net method endpoint cache cache_key use_cache nowS evs).events
      = evs ++ [.transport method (st.base_url ++ endpoint)] := by
  unfold async_net_phase at h ⊢
  cases hok : (net method (st.base_url ++ endpoint)).ok
  · simp [hok]
  · rw [if_neg (by simp [hok])] at h ⊢
    cases hde : async_decode (net method (st.base_url ++ endpoint)).body
    · simp [hde]
    · simp only [hde] at h ⊢
      rename_i data
      cases hce : check_errors (data.getD emptyPayload)
      · simp [hce]
      · simp only [hce] at h ⊢
        exfalso
        split at h <;> simp_all

theorem sync_request_classified_no_write (st : ClientState) (net : Verb → String → HttpResponse)
    (method : Verb) (endpoint : String) (params : Option Params)
    (use_cache : Bool) (attr : Option String) (nowS : Nat) (e : ClassifiedError)
    (h : (sync_request st net method endpoint params use_cache attr nowS).result
      = .error (.classified e)) :
    ∀ k, Event.cacheWrite k ∉ (sync_request st net method endpoint params use_cache attr nowS).events := by
  intro k
  unfold sync_request at h ⊢
  split at h
  · simp_all
  · rename_i h1
    rw [if_neg h1]
    split at h
    · simp_all
    · rename_i h2
      rw [if_neg h2]
      cases use_cache
      · show Event.cacheWrite k ∉
          (sync_net_phase st net method endpoint st.cache none false nowS []).events
        rw [sync_net_phase_error_events _ _ _ _ _ _ _ _ _ _ h]
        simp
      · rcases hcache : st.cache with _ | cref
        · rw [hcache] at h
          show Event.cacheWrite k ∉
            (sync_net_phase st net method endpoint none none true nowS []).events
          rw [sync_net_phase_error_events _ _ _ _ _ _ _ _ _ _ h]
          simp
        · cases cref with
          | asyncC d =>
            rw [hcache] at h
            show Event.cacheWrite k ∉
              (sync_net_phase st net method endpoint (some (.asyncC d)) none true nowS []).events
            rw [sync_net_phase_error_events _ _ _ _ _ _ _ _ _ _ h]
            simp
          | syncC d =>
            rw [hcache] at h
            have h' : (match (SyncMemoryCache.get d (generate_cache_key method endpoint params attr) nowS).1 with
              | some (some p) =>
                ({ result := .ok p,
                   cache := some (.syncC (SyncMemoryCache.get d (generate_cache_key method endpoint params attr) nowS).2),
                   events := [.cacheRead (generate_cache_key method endpoint params attr)] } : Outcome Payload)
              | _ =>
                sync_net_phase st net method endpoint
                  (some (.syncC (SyncMemoryCache.get d (generate_cache_key method endpoint params attr) nowS).2))
                  (some (generate_cache_key method endpoint params attr)) true nowS
                  [.cacheRead (generate_cache_key method endpoint params attr)]).result
                = .error (.classified e) := h
            show Event.cacheWrite k ∉
              (match (SyncMemoryCache.get d (generate_cache_key method endpoint params attr) nowS).1 with
              | some (some p) =>
                ({ result := .ok p,
                   cache := some (.syncC (SyncMemoryCache.get d (generate_cache_key method endpoint params attr) nowS).2),
                   events := [.cacheRead (generate_cache_key method endpoint params attr)] } : Outcome Payload)
              | _ =>
                sync_net_phase st net method endpoint
                  (some (.syncC (SyncMemoryCache.get d (generate_cache_key method endpoint params attr) nowS).2))
                  (some (generate_cache_key method endpoint params attr)) true nowS
                  [.cacheRead (generate_cache_key method endpoint params attr)]).events
            cases hgr : (SyncMemoryCache.get d (generate_cache_key method endpoint params attr) nowS).1 with
            | none =>
              rw [hgr] at h'
              show Event.cacheWrite k ∉
                (sync_net_phase st net method endpoint
                  (some (.syncC (SyncMemoryCache.get d (generate_cache_key method endpoint params attr) nowS).2))
                  (some (generate_cache_key method endpoint params attr)) true nowS
                  [.cacheRead (generate_cache_key method endpoint params attr)]).events
              rw [sync_net_phase_error_events st net method endpoint
                  (some (.syncC (SyncMemoryCache.get d (generate_cache_key method endpoint params attr) nowS).2))
                  (some (generate_cache_key method endpoint params attr)) true nowS
                  [.cacheRead (generate_cache_key method endpoint params attr)] (.classified e) h']
              simp
            | some pv =>
              cases pv with
              | none =>
                rw [hgr] at h'
                show Event.cacheWrite k ∉
                  (sync_net_phase st net method endpoint
                    (some (.syncC (SyncMemoryCache.get d (generate_cache_key method endpoint params attr) nowS).2))
                    (some (generate_cache_key method endpoint params attr)) true nowS
                    [.cacheRead (generate_cache_key method endpoint params attr)]).events
                rw [sync_net_phase_error_events st net method endpoint
                    (some (.syncC (SyncMemoryCache.get d (generate_cache_key method endpoint params attr) nowS).2))
                    (some (generate_cache_key method endpoint params attr)) true nowS
                    [.cacheRead (generate_cache_key method endpoint params attr)] (.classified e) h']
                simp
              | some p =>
                rw [hgr] at h'
                simp at h'

theorem async_request_classified_no_write (st : ClientState) (net : Verb → String → HttpResponse)
    (method : Verb) (endpoint : String) (params : Option Params)
    (use_cache : Bool) (attr : Option String) (nowS : Nat) (e : ClassifiedError)
    (h : (async_request st net method endpoint params use_cache attr nowS).result
      = .error (.classified e)) :
    ∀ k, Event.cacheWrite k ∉ (async_request st net method endpoint params use_cache attr nowS).events := by
  intro k
  unfold async_request at h ⊢
  split at h
  · simp_all
  · rename_i h1
    rw [if_neg h1]
    split at h
    · simp_all
    · rename_i h2
      rw [if_neg h2]
      cases use_cache
      · show Event.cacheWrite k ∉
          (async_net_phase st net method endpoint st.cache none false nowS []).events
        rw [async_net_phase_error_events _ _ _ _ _ _ _ _ _ _ h]
        simp
      · rcases hcache : st.cache with _ | cref
        · rw [hcache] at h
          show Event.cacheWrite k ∉
            (async_net_phase st net method endpoint none none true nowS []).events
          rw [async_net_phase_error_events _ _ _ _ _ _ _ _ _ _ h]
          simp
        · cases cref with
          | asyncC d =>
            rw [hcache] at h
            have h' : (match (AsyncMemoryCache.aget d (generate_cache_key method endpoint params attr) nowS).1 with
              | some (some p) =>
                ({ result := .ok (some p),
                   cache := some (.asyncC (AsyncMemoryCache.aget d (generate_cache_key method endpoint params attr) nowS).2),
                   events := [.cacheRead (generate_cache_key method endpoint params attr)] } : Outcome PyV)
              | _ =>
                async_net_phase st net method endpoint
                  (some (.asyncC (AsyncMemoryCache.aget d (generate_cache_key method endpoint params attr) nowS).2))
                  (some (generate_cache_key method endpoint params attr)) true nowS
                  [.cacheRead (generate_cache_key method endpoint params attr)]).result
                = .error (.classified e) := h
            show Event.cacheWrite k ∉
              (match (AsyncMemoryCache.aget d (generate_cache_key method endpoint params attr) nowS).1 with
              | some (some p) =>
                ({ result := .ok (some p),
                   cache := some (.asyncC (AsyncMemoryCache.aget d (generate_cache_key method endpoint params attr) nowS).2),
                   events := [.cacheRead (generate_cache_key method endpoint params attr)] } : Outcome PyV)
              | _ =>
                async_net_phase st net method endpoint
                  (some (.asyncC (AsyncMemoryCache.aget d (generate_cache_key method endpoint params attr) nowS).2))
                  (some (generate_cache_key method endpoint params attr)) true nowS
                  [.cacheRead (generate_cache_key method endpoint params attr)]).events
            cases hgr : (AsyncMemoryCache.aget d (generate_cache_key method endpoint params attr) nowS).1 with
            | none =>
              rw [hgr] at h'
              show Event.cacheWrite k ∉
                (async_net_phase st net method endpoint
                  (some (.asyncC (AsyncMemoryCache.aget d (generate_cache_key method endpoint params attr) nowS).2))
                  (some (generate_cache_key method endpoint params attr)) true nowS
                  [.cacheRead (generate_cache_key method endpoint params attr)]).events
              rw [async_net_phase_error_events st net method endpoint
                  (some (.asyncC (AsyncMemoryCache.aget d (generate_cache_key method endpoint params attr) nowS).2))
                  (some (generate_cache_key method endpoint params attr)) true nowS
                  [.cacheRead (generate_cache_key method endpoint params attr)] (.classified e) h']
              simp
            | some pv =>
              cases pv with
              | none =>
                rw [hgr] at h'
                show Event.cacheWrite k ∉
                  (async_net_phase st net method endpoint
                    (some (.asyncC (AsyncMemoryCache.aget d (generate_cache_key method endpoint params attr) nowS).2))
                    (some (generate_cache_key method endpoint params attr)) true nowS
                    [.cacheRead (generate_cache_key method endpoint params attr)]).events
                rw [async_net_phase_error_events st net method endpoint
                    (some (.asyncC (AsyncMemoryCache.aget d (generate_cache_key method endpoint params attr) nowS).2))
                    (some (generate_cache_key method endpoint params attr)) true nowS
                    [.cacheRead (generate_cache_key method endpoint params attr)] (.classified e) h']
                simp
              | some p =>
                rw [hgr] at h'
                simp at h'
          | syncC d =>
            rw [hcache] at h
            have h' : (match (SyncMemoryCache.get d (generate_cache_key method endpoint params attr) nowS).1 with
              | some (some p) =>
                ({ result := .ok (some p),
                   cache := some (.syncC (SyncMemoryCache.get d (generate_cache_key method endpoint params attr) nowS).2),
                   events := [.cacheRead (generate_cache_key method endpoint params attr)] } : Outcome PyV)
              | _ =>
                async_net_phase st net method endpoint
                  (some (.syncC (SyncMemoryCache.get d (generate_cache_key method endpoint params attr) nowS).2))
                  (some (generate_cache_key method endpoint params attr)) true nowS
                  [.cacheRead (generate_cache_key method endpoint params attr)]).result
                = .error (.classified e) := h
            show Event.cacheWrite k ∉
              (match (SyncMemoryCache.get d (generate_cache_key method endpoint params attr) nowS).1 with
              | some (some p) =>
                ({ result := .ok (some p),
                   cache := some (.syncC (SyncMemoryCache.get d (generate_cache_key method endpoint params attr) nowS).2),
                   events := [.cacheRead (generate_cache_key method endpoint params attr)] } : Outcome PyV)
              | _ =>
                async_net_phase st net method endpoint
                  (some (.syncC (SyncMemoryCache.get d (generate_cache_key method endpoint params attr) nowS).2))
                  (some (generate_cache_key method endpoint params attr)) true nowS
                  [.cacheRead (generate_cache_key method endpoint params attr)]).events
            cases hgr : (SyncMemoryCache.get d (generate_cache_key method endpoint params attr) nowS).1 with
            | none =>
              rw [hgr] at h'
              show Event.cacheWrite k ∉
                (async_net_phase st net method endpoint
                  (some (.syncC (SyncMemoryCache.get d (generate_cache_key method endpoint params attr) nowS).2))
                  (some (generate_cache_key method endpoint params attr)) true nowS
                  [.cacheRead (generate_cache_key method endpoint params attr)]).events
              rw [async_net_phase_error_events st net method endpoint
                  (some (.syncC (SyncMemoryCache.get d (generate_cache_key method endpoint params attr) nowS).2))
                  (some (generate_cache_key method endpoint params attr)) true nowS
                  [.cacheRead (generate_cache_key method endpoint params attr)] (.classified e) h']
              simp
            | some pv =>
              cases pv with
              | none =>
                rw [hgr] at h'
                show Event.cacheWrite k ∉
                  (async_net_phase st net method endpoint
                    (some (.syncC (SyncMemoryCache.get d (generate_cache_key method endpoint params attr) nowS).2))
                    (some (generate_cache_key method endpoint params attr)) true nowS
                    [.cacheRead (generate_cache_key method endpoint params attr)]).events
                rw [async_net_phase_error_events st net method endpoint
                    (some (.syncC (SyncMemoryCache.get d (generate_cache_key method endpoint params attr) nowS).2))
                    (some (generate_cache_key method endpoint params attr)) true nowS
                    [.cacheRead (generate_cache_key method endpoint params attr)] (.classified e) h']
                simp
              | some p =>
                rw [hgr] at h'
                simp at h'


/-- C1: the claim states that in the authenticated pipeline the cache key
is derived from the pre-signature parameter set, so that two cached GET
invocations differing only in capture-time timestamp and signature address
the same cache entry and the second returns from cache without a second
transport invocation.  The code contradicts this (and the stated intent of
the key generator, whose documentation says timestamp and signature are
excluded): the signed wrapper embeds the timestamp and the signature into
the endpoint string and passes no parameter mapping to the base pipeline,
so the two calls get different keys and the second call reaches transport
again, as this evaluation of the failing input shows. -/
theorem repeat_call_transport_twice :
    repeat_call1.result = .ok demo_payload ∧
    repeat_call1.events =
      [.cacheRead "GET:/x?symbol=BTC-USDT&timestamp=111&signature=S",
       .transport .GET "B/x?symbol=BTC-USDT&timestamp=111&signature=S",
       .cacheWrite "GET:/x?symbol=BTC-USDT&timestamp=111&signature=S"] ∧
    repeat_call2.result = .ok demo_payload ∧
    repeat_call2.events =
      [.cacheRead "GET:/x?symbol=BTC-USDT&timestamp=222&signature=S",
       .transport .GET "B/x?symbol=BTC-USDT&timestamp=222&signature=S",
       .cacheWrite "GET:/x?symbol=BTC-USDT&timestamp=222&signature=S"] := by
  refine ⟨rfl, rfl, rfl, rfl⟩

/-- C2 counterexample: the empty mapping and the mapping holding only a
timestamp entry differ only in their timestamp entries, yet they produce
different cache keys, because the truthiness test that decides whether a
query segment is appended runs on the unfiltered mapping. -/
theorem cache_key_volatile_only_mapping_cex :
    sortPairs (filterVolatile [("timestamp", .vInt 1)]) = sortPairs (filterVolatile []) ∧
    generate_cache_key .GET "/x" (some [("timestamp", .vInt 1)]) none ≠
      generate_cache_key .GET "/x" (some []) none := ⟨rfl, by decide⟩

/-- C2 (amended): the cache-key deriver removes signature and timestamp,
sorts the remaining parameters by name, urlencodes them and joins verb,
endpoint, query string and optional discriminator with colons; two
derivations whose mappings differ only in their timestamp and signature
entries produce identical keys provided the two mappings are both empty or
both non-empty (a mapping holding only volatile entries yields a trailing
empty query segment that the empty mapping does not). -/
theorem generate_cache_key_stability (m : Verb) (e : String) (attr : Option String)
    (p1 p2 : Params)
    (hfil : sortPairs (filterVolatile p1) = sortPairs (filterVolatile p2))
    (hemp : p1 = ([] : Params) ↔ p2 = ([] : Params)) :
    generate_cache_key m e (some p1) attr = generate_cache_key m e (some p2) attr := by
  unfold generate_cache_key
  by_cases h1 : p1 = ([] : Params)
  · have h2 := hemp.mp h1
    subst h1 h2
    rfl
  · have h2 : p2 ≠ ([] : Params) := fun hc => h1 (hemp.mpr hc)
    have e1 : (List.isEmpty p1) = false := by
      simp [List.isEmpty_iff]
      exact h1
    have e2 : (List.isEmpty p2) = false := by
      simp [List.isEmpty_iff]
      exact h2
    simp [e1, e2, hfil]

/-- C2 witness: the cache keys of the specification example, with the two
timestamp and signature values of the spec, coincide. -/
theorem generate_cache_key_stability_witness :
    generate_cache_key .GET "/x"
      (some [("symbol", .vStr "BTC-USDT"), ("timestamp", .vInt 111), ("signature", .vStr "abc")]) none =
    generate_cache_key .GET "/x"
      (some [("symbol", .vStr "BTC-USDT"), ("timestamp", .vInt 222), ("signature", .vStr "xyz")]) none :=
  generate_cache_key_stability .GET "/x" none _ _ rfl (by simp)

/-- C3 counterexample: a list-valued parameter is not rendered as a
comma-joined string with internal whitespace stripped; the code renders the
Python string representation of the list (brackets and element quotes
included) with spaces removed, so canonicalization differs from the claimed
rendering at this input. -/
theorem parse_params_list_rendering_cex :
    parse_params [("a", .vList [.vStr "x y", .vInt 2])] 5 ≠
      spec_canonical [("a", .vList [.vStr "x y", .vInt 2])] 5 := by decide

/-- C3 (amended): canonicalization drops falsy parameters, sorts the rest
byte-wise by name, joins name=value with ampersands and appends the
timestamp with no leading ampersand when the string so far is empty, with
a list value rendered as its bracketed, quoted Python string representation
with every space removed rather than as a bare comma-joined string. -/
theorem parse_params_canonicalization (params : Params) (tMs : Nat) :
    parse_params params tMs = spec_canonical_amended params tMs := by
  unfold parse_params spec_canonical_amended
  rw [filter_sortPairs]
  by_cases h : "&".intercalate ((sortPairs (params.filter fun kv => pyTruthy kv.2)).map
      fun kv => kv.1 ++ "=" ++ renderParam kv.2) = "" <;>
    simp [h]

/-- C4: with an initialized session, a non-GET call with caching requested
while the process-wide flag permitting non-GET caching is disabled raises
the caching-misuse failure with no cache read, no cache write and no
transport invocation, in both the blocking and the non-blocking path. -/
theorem non_get_cache_gate (st : ClientState) (net : Verb → String → HttpResponse)
    (method : Verb) (endpoint : String) (params : Option Params)
    (attr : Option String) (nowS : Nat) (hm : method ≠ .GET)
    (hflag : st.allowNonGetCache = false) (hs : st.session ≠ .unopened)
    (ha : st.asyncSession ≠ .unopened) :
    sync_request st net method endpoint params true attr nowS =
      { result := .error .cacheMisuse, cache := st.cache, events := [] } ∧
    async_request st net method endpoint params true attr nowS =
      { result := .error .cacheMisuse, cache := st.cache, events := [] } := by
  constructor
  · unfold sync_request
    rw [if_neg hs, if_pos ⟨rfl, hm, hflag⟩]
  · unfold async_request
    rw [if_neg ha, if_pos ⟨rfl, hm, hflag⟩]

/-- C4 witness: a concrete POST with caching requested on the demo client
fails with the caching-misuse failure and performs no side effect. -/
theorem non_get_cache_gate_witness :
    sync_request demo_state demo_net .POST "/o" none true none 0 =
      { result := .error .cacheMisuse, cache := demo_state.cache, events := [] } ∧
    async_request demo_state demo_net .POST "/o" none true none 0 =
      { result := .error .cacheMisuse, cache := demo_state.cache, events := [] } :=
  non_get_cache_gate demo_state demo_net .POST "/o" none none 0 (by decide) rfl
    (by decide) (by decide)

/-- C5: the error classifier returns normally exactly when the payload has
no code field or the code is zero; a code present in the fixed table raises
its specific typed failure without the raw code, and an unmapped non-zero
code raises the generic API-error kind carrying the raw code and the
message. -/
theorem check_errors_taxonomy (d : Payload) :
    (check_errors d = .ok () ↔ d.code = none ∨ d.code = some 0) ∧
    (∀ c k, d.code = some c → error_mapping.lookup c = some k →
      check_errors d =
        .error ⟨k, d.msg.getD "No error message provided", d.timestamp, none⟩) ∧
    (∀ c, d.code = some c → c ≠ 0 → error_mapping.lookup c = none →
      check_errors d =
        .error ⟨.apiError, d.msg.getD "No error message provided", d.timestamp, some c⟩) := by
  refine ⟨?_, ?_, ?_⟩
  · cases hcode : d.code with
    | none => simp [check_errors, hcode]
    | some c =>
      by_cases hc : c = 0
      · simp [check_errors, hcode, hc]
      · simp only [check_errors, hcode, if_neg hc]
        split <;> simp [hc]
  · intro c k hcode hk
    have hmem := lookup_mem_error_mapping hk
    have hkind := table_kinds_specific _ hmem
    have hc0 : c ≠ 0 := table_codes_nonzero _ hmem
    simp only [check_errors, hcode, if_neg hc0, hk, Option.getD_some]
    rw [if_neg hkind]
  · intro c hcode hc hl
    simp [check_errors, hcode, hc, hl]

/-- C5 witness: code 100413 yields the incorrect-API-key typed failure,
code 0 returns normally, and the unmapped code 999999 yields the generic
API-error kind carrying the raw code. -/
theorem check_errors_taxonomy_witness :
    check_errors ⟨some 100413, some "bad key", none, []⟩ =
      .error ⟨.incorrectAPIKey, "bad key", none, none⟩ ∧
    check_errors ⟨some 0, none, none, []⟩ = .ok () ∧
    check_errors ⟨some 999999, some "?", none, []⟩ =
      .error ⟨.apiError, "?", none, some 999999⟩ :=
  ⟨(check_errors_taxonomy _).2.1 100413 .incorrectAPIKey rfl rfl,
   (check_errors_taxonomy _).1.mpr (Or.inr rfl),
   (check_errors_taxonomy _).2.2 999999 rfl (by decide) rfl⟩

/-- C6 counterexample: after connect and close the synchronous session
attribute is still set (close never clears it), so a request on the closed
client does not raise the not-initialized failure; it proceeds over the
transport (a closed requests session still performs requests) and returns
the payload, which is not the not-initialized failure the claim
requires. -/
theorem request_after_close_cex :
    (close (connect demo_state)).session = SessionState.closedS ∧
    (sync_request (close (connect demo_state)) demo_net .GET "/p" none false none 0).result
      = .ok emptyPayload ∧
    (Except.ok emptyPayload : Except Failure Payload) ≠ .error .notInitialized := by
  refine ⟨rfl, rfl, by decide⟩

/-- C6 (amended): both request operations raise the fatal not-initialized
failure whenever invoked before open; after close the session attribute
remains set, so the client-level not-initialized check does not fire, and
the synchronous request proceeds exactly as on an open session.  (In the
asynchronous path any rejection of a closed session comes from the
underlying aiohttp session object at the transport boundary, not from the
client code modelled here.) -/
theorem request_unopened_raises (st : ClientState) (net : Verb → String → HttpResponse)
    (method : Verb) (endpoint : String) (params : Option Params)
    (use_cache : Bool) (attr : Option String) (nowS : Nat) :
    (sync_request { st with session := .unopened } net method endpoint params use_cache attr nowS
      = { result := .error .notInitialized, cache := st.cache, events := [] }) ∧
    (async_request { st with asyncSession := .unopened } net method endpoint params use_cache attr nowS
      = { result := .error .notInitialized, cache := st.cache, events := [] }) ∧
    (sync_request { st with session := .closedS } net method endpoint params use_cache attr nowS
      = sync_request { st with session := .opened } net method endpoint params use_cache attr nowS) :=
  ⟨rfl, rfl, rfl⟩

/-- C7: in both in-memory caches, an entry stored with a positive ttl is
absent once the ttl has elapsed and the expired read evicts the entry, so
every subsequent read stays absent; an entry stored with no ttl never
expires. -/
theorem memory_cache_ttl_expiry (α : Type) (data : CacheData α) (key : String)
    (value : α) (ttl t1 t2 : Nat) (hnd : (cacheKeys data).Nodup)
    (hpos : 0 < ttl) (helapsed : t1 + ttl < t2) :
    (SyncMemoryCache.get (SyncMemoryCache.set data key value (some ttl) t1) key t2).1 = none ∧
    (∀ t3, (SyncMemoryCache.get
      ((SyncMemoryCache.get (SyncMemoryCache.set data key value (some ttl) t1) key t2).2)
      key t3).1 = none) ∧
    (∀ t, (SyncMemoryCache.get (SyncMemoryCache.set data key value none t1) key t).1 = some value) ∧
    (AsyncMemoryCache.aget (AsyncMemoryCache.aset data key value (some ttl) t1) key t2).1 = none ∧
    (∀ t3, (AsyncMemoryCache.aget
      ((AsyncMemoryCache.aget (AsyncMemoryCache.aset data key value (some ttl) t1) key t2).2)
      key t3).1 = none) ∧
    (∀ t, (AsyncMemoryCache.aget (AsyncMemoryCache.aset data key value none t1) key t).1 = some value) := by
  have hne : t1 + ttl ≠ 0 := by omega
  have httl : ttl ≠ 0 := by omega
  have hset : SyncMemoryCache.set data key value (some ttl) t1
      = dictSet data key (value, some (t1 + ttl)) := by
    simp [SyncMemoryCache.set, httl]
  have hget1 : SyncMemoryCache.get (dictSet data key (value, some (t1 + ttl))) key t2
      = (none, dictPop (dictSet data key (value, some (t1 + ttl))) key) := by
    simp [SyncMemoryCache.get, lookup_dictSet_self, hne, helapsed]
  have hnd2 : (cacheKeys (dictSet data key (value, some (t1 + ttl)))).Nodup :=
    nodup_cacheKeys_dictSet _ _ _ hnd
  have hget2 : ∀ t3, (SyncMemoryCache.get
      (dictPop (dictSet data key (value, some (t1 + ttl))) key) key t3).1 = none := by
    intro t3
    simp [SyncMemoryCache.get, lookup_dictPop_self _ _ hnd2]
  have hnone : ∀ t,
      (SyncMemoryCache.get (SyncMemoryCache.set data key value none t1) key t).1 = some value := by
    intro t
    simp [SyncMemoryCache.get, SyncMemoryCache.set, lookup_dictSet_self]
  refine ⟨by rw [hset, hget1], ?_, hnone, ?_, ?_, ?_⟩
  · intro t3
    rw [hset, hget1]
    exact hget2 t3
  · simp only [aget_eq_get, aset_eq_set]
    rw [hset, hget1]
  · intro t3
    simp only [aget_eq_get, aset_eq_set]
    rw [hset, hget1]
    exact hget2 t3
  · intro t
    simp only [aget_eq_get, aset_eq_set]
    exact hnone t

/-- C7 witness: an entry set at time 0 with ttl 1 is absent at time 2,
stays absent at time 3 after the evicting read, and an entry stored with no
ttl is still present at time 9, in both caches. -/
theorem memory_cache_ttl_expiry_witness :
    (SyncMemoryCache.get (SyncMemoryCache.set ([] : CacheData Nat) "k" 1 (some 1) 0) "k" 2).1 = none ∧
    (SyncMemoryCache.get
      ((SyncMemoryCache.get (SyncMemoryCache.set ([] : CacheData Nat) "k" 1 (some 1) 0) "k" 2).2)
      "k" 3).1 = none ∧
    (SyncMemoryCache.get (SyncMemoryCache.set ([] : CacheData Nat) "k" 1 none 0) "k" 9).1 = some 1 ∧
    (AsyncMemoryCache.aget (AsyncMemoryCache.aset ([] : CacheData Nat) "k" 1 (some 1) 0) "k" 2).1 = none :=
  have h := memory_cache_ttl_expiry Nat [] "k" 1 1 0 2 (by simp [cacheKeys]) (by decide) (by decide)
  ⟨h.1, h.2.1 3, h.2.2.1 9, h.2.2.2.1⟩

/-- C8: within one pipeline invocation, whenever the classifier raises,
the classified failure is the result returned to the caller and no cache
write event occurs, in both the blocking and the non-blocking path. -/
theorem classified_failure_never_cached (st : ClientState) (net : Verb → String → HttpResponse)
    (method : Verb) (endpoint : String) (params : Option Params) (use_cache : Bool)
    (attr : Option String) (nowS : Nat) (e : ClassifiedError) :
    ((sync_request st net method endpoint params use_cache attr nowS).result
        = .error (.classified e) →
      ∀ k, Event.cacheWrite k ∉ (sync_request st net method endpoint params use_cache attr nowS).events) ∧
    ((async_request st net method endpoint params use_cache attr nowS).result
        = .error (.classified e) →
      ∀ k, Event.cacheWrite k ∉ (async_request st net method endpoint params use_cache attr nowS).events) :=
  ⟨fun h => sync_request_classified_no_write st net method endpoint params use_cache attr nowS e h,
   fun h => async_request_classified_no_write st net method endpoint params use_cache attr nowS e h⟩

/-- C8 witness: a cached GET whose payload carries the signature failure
code returns the classified failure and writes nothing to the cache. -/
theorem classified_failure_never_cached_witness :
    (sync_request demo_state demo_net_sigfail .GET "/s" none true none 0).result
      = .error (.classified ⟨.signatureVerificationFailed, "sig", none, none⟩) ∧
    Event.cacheWrite "GET:/s" ∉ (sync_request demo_state demo_net_sigfail .GET "/s" none true none 0).events :=
  ⟨rfl,
   (classified_failure_never_cached demo_state demo_net_sigfail .GET "/s" none true none 0
      ⟨.signatureVerificationFailed, "sig", none, none⟩).1 rfl "GET:/s"⟩

/-- C9 counterexample: in the asynchronous path an unparseable 2xx body is
not decoded to the empty mapping; the uncaught json decode failure
propagates, and an absent body is returned as Python None, which differs
from the empty mapping. -/
theorem async_empty_body_cex :
    (async_request demo_state (fun _ _ => ⟨true, .invalid⟩) .GET "/t" none false none 0).result
      = .error .jsonDecode ∧
    (async_request demo_state (fun _ _ => ⟨true, .absent⟩) .GET "/t" none false none 0).result
      = .ok none ∧
    (Except.ok (none : PyV) : Except Failure PyV) ≠ .ok (some emptyPayload) := by
  refine ⟨rfl, rfl, by decide⟩

/-- C9 (amended): in the synchronous path an absent or unparseable 2xx
body decodes to the empty mapping, which is classified and returned; in
the asynchronous path an absent body yields Python None as the returned
value (the classifier still receives the empty mapping through the
None-coercion) and an unparseable body raises a json decode failure. -/
theorem empty_body_decoding (st : ClientState) (method : Verb) (endpoint : String)
    (params : Option Params) (attr : Option String) (nowS : Nat) (p : Payload)
    (hs : st.session ≠ .unopened) (ha : st.asyncSession ≠ .unopened) :
    sync_decode .absent = emptyPayload ∧
    sync_decode .invalid = emptyPayload ∧
    sync_decode (.json p) = p ∧
    async_decode .absent = .ok none ∧
    async_decode .invalid = .error () ∧
    async_decode (.json p) = .ok (some p) ∧
    (sync_request st (fun _ _ => ⟨true, .absent⟩) method endpoint params false attr nowS).result
      = .ok emptyPayload ∧
    (sync_request st (fun _ _ => ⟨true, .invalid⟩) method endpoint params false attr nowS).result
      = .ok emptyPayload ∧
    (async_request st (fun _ _ => ⟨true, .absent⟩) method endpoint params false attr nowS).result
      = .ok none ∧
    (async_request st (fun _ _ => ⟨true, .invalid⟩) method endpoint params false attr nowS).result
      = .error .jsonDecode := by
  refine ⟨rfl, rfl, rfl, rfl, rfl, rfl, ?_, ?_, ?_, ?_⟩ <;>
    · first
      | (unfold sync_request; rw [if_neg hs, if_neg (by simp)]; rfl)
      | (unfold async_request; rw [if_neg ha, if_neg (by simp)]; rfl)

/-- C9 witness: on the demo client an absent synchronous body returns the
empty mapping, and an unparseable asynchronous body raises the json decode
failure. -/
theorem empty_body_decoding_witness :
    (sync_request demo_state (fun _ _ => ⟨true, .absent⟩) .GET "/t" none false none 0).result
      = .ok emptyPayload ∧
    (async_request demo_state (fun _ _ => ⟨true, .invalid⟩) .GET "/t" none false none 0).result
      = .error .jsonDecode :=
  ⟨(empty_body_decoding demo_state .GET "/t" none none 0 emptyPayload
      (by decide) (by decide)).2.2.2.2.2.2.1,
   (empty_body_decoding demo_state .GET "/t" none none 0 emptyPayload
      (by decide) (by decide)).2.2.2.2.2.2.2.2.2⟩

/-- C10: in both in-memory caches, storing with ttl zero is the same
operation as storing with no ttl, and the stored entry is returned by a
read at every later time: a zero ttl means never expires, not immediate
expiry. -/
theorem memory_cache_zero_ttl (α : Type) (data : CacheData α) (key : String)
    (value : α) (t1 : Nat) :
    SyncMemoryCache.set data key value (some 0) t1 = SyncMemoryCache.set data key value none t1 ∧
    (∀ t, (SyncMemoryCache.get (SyncMemoryCache.set data key value (some 0) t1) key t).1 = some value) ∧
    AsyncMemoryCache.aset data key value (some 0) t1 = AsyncMemoryCache.aset data key value none t1 ∧
    (∀ t, (AsyncMemoryCache.aget (AsyncMemoryCache.aset data key value (some 0) t1) key t).1 = some value) := by
  refine ⟨rfl, ?_, rfl, ?_⟩ <;>
    · intro t
      simp [SyncMemoryCache.get, SyncMemoryCache.set, AsyncMemoryCache.aget,
        AsyncMemoryCache.aset, lookup_dictSet_self]

end BingX
